import Mathlib

/-!
Shallow embedding of the purelymail-mcp-server repository (src/src/index.ts).

The repository ships two revisions of the same HTTP server in one source
file:

* a legacy Express server (`startHttpServer`) plus the MCP SDK request
  handlers registered in `initializeServer`, and
* the `HttpServerTransport` class, whose `POST /mcp` route correlates
  synchronous HTTP callers with the SDK's asynchronous `send` callback
  through the `pendingResponses` map.

JavaScript values that the code inspects are modelled concretely:
`JsonId` for JSON-RPC correlation ids (strings or numbers, with JS
truthiness for the `id || null` idiom), `JValue` for JSON bodies, and
`Option` for absent / `undefined` / `null` fields where the code only
distinguishes present vs. absent.  Node's event loop runs each callback
to completion, so the route handler's synchronous prefix, the
`setTimeout` callback, and `send` are each one atomic step of the
correlation state machine (`CState` / `step`).
-/

/-- JSON-RPC correlation ids are strings or numbers (`string | number`
in the SDK's `JSONRPCMessage`). -/
inductive JsonId where
  | str (s : String)
  | num (n : Int)
deriving DecidableEq, Repr

/-- JS truthiness of an id value: `0` and `""` are falsy, every other
string or number is truthy. -/
def JsonId.truthy : JsonId → Bool
  | .str s => s ≠ ""
  | .num n => n ≠ 0

/-- JS expression `message.id || null` (index.ts lines 617 and 685):
a falsy id (absent, `null`, `0`, `""`) is replaced by `null`. -/
def jsEchoId : Option JsonId → Option JsonId
  | none => none
  | some j => if j.truthy then some j else none

/-- JSON values, for request parameters and tool results. -/
inductive JValue where
  | jnull
  | jbool (b : Bool)
  | jnum (n : Int)
  | jstr (s : String)
  | jarr (xs : List JValue)
  | jobj (fields : List (String × JValue))

/-- JS truthiness of a JSON value: `null`, `false`, `0` and `""` are
falsy; arrays and objects (even empty ones) are truthy. -/
def jTruthy : JValue → Bool
  | .jnull => false
  | .jbool b => b
  | .jnum n => n ≠ 0
  | .jstr s => s ≠ ""
  | .jarr _ => true
  | .jobj _ => true

/-- JS truthiness of an optional string field (`undefined` and `""` are
falsy). -/
def strTruthy : Option String → Bool
  | some s => s ≠ ""
  | none => false

/-- JS `a || b` on optional string fields, as in
`params?.name || params?.toolName` (index.ts line 327). -/
def jsOrStr (a b : Option String) : Option String :=
  if strTruthy a then a else b

/-- JS `a || b` where `b` is a concrete JSON default, as in
`params?.arguments || params?.args || {}` (index.ts line 328). -/
def jValueOrElse (a : Option JValue) (b : JValue) : JValue :=
  match a with
  | some v => if jTruthy v then v else b
  | none => b

mutual

/-- Serialization of a JSON value, standing in for `JSON.stringify`
(index.ts line 71).  The two-space indentation argument of the source is
not modelled; no claim depends on the rendered string. -/
def jsonStringify : JValue → String
  | .jnull => "null"
  | .jbool true => "true"
  | .jbool false => "false"
  | .jnum n => toString n
  | .jstr s => "\"" ++ s ++ "\""
  | .jarr xs => "[" ++ jsonStringifyList xs ++ "]"
  | .jobj fs => "\x7b" ++ jsonStringifyFields fs ++ "\x7d"

/-- Serialization of the elements of a JSON array. -/
def jsonStringifyList : List JValue → String
  | [] => ""
  | [x] => jsonStringify x
  | x :: y :: xs => jsonStringify x ++ "," ++ jsonStringifyList (y :: xs)

/-- Serialization of the fields of a JSON object. -/
def jsonStringifyFields : List (String × JValue) → String
  | [] => ""
  | [(k, v)] => "\"" ++ k ++ "\":" ++ jsonStringify v
  | (k, v) :: f :: fs =>
      "\"" ++ k ++ "\":" ++ jsonStringify v ++ "," ++ jsonStringifyFields (f :: fs)

end

/-- Inbound JSON-RPC message as read by the `HttpServerTransport` `/mcp`
route: only the `jsonrpc`, `id` and `method` fields are inspected
(index.ts lines 611-646); `params` is passed through opaquely. -/
structure RpcMessage where
  jsonrpc : Option String
  id : Option JsonId
  method : Option String
deriving DecidableEq, Repr

/-- Outbound JSON-RPC message as inspected by `HttpServerTransport.send`
(index.ts lines 771-785): only the `id` is examined, the rest of the
response is delivered opaquely, so it is carried as an uninterpreted
payload string. -/
structure OutMessage where
  id : Option JsonId
  payload : String
deriving DecidableEq, Repr

/-- Pending correlation map `pendingResponses : Map<string | number, resolver>`
(index.ts line 563).  Resolvers are identified by the token (`Nat`) of
the request whose promise they settle; the association list implements
the key-to-value function of a JS `Map`. -/
abbrev PendingMap := List (JsonId × Nat)

/-- Lookup, as `Map.get` (index.ts line 777). -/
def pmLookup : PendingMap → JsonId → Option Nat
  | [], _ => none
  | (k', v) :: rest, k => if k' = k then some v else pmLookup rest k

/-- Deletion, as `Map.delete` (index.ts lines 656 and 779). -/
def pmDelete : PendingMap → JsonId → PendingMap
  | [], _ => []
  | (k', v) :: rest, k => if k' = k then pmDelete rest k else (k', v) :: pmDelete rest k

/-- Insertion, as `Map.set` (index.ts line 652): an existing binding for
the key is replaced. -/
def pmSet (m : PendingMap) (k : JsonId) (v : Nat) : PendingMap :=
  pmDelete m k ++ [(k, v)]

theorem pmLookup_pmDelete_self (m : PendingMap) (k : JsonId) :
    pmLookup (pmDelete m k) k = none := by
  induction m with
  | nil => rfl
  | cons e rest ih =>
      obtain ⟨k', v⟩ := e
      by_cases h : k' = k
      · simp [pmDelete, h, ih]
      · simp [pmDelete, pmLookup, h, ih]

theorem pmLookup_pmDelete_other (m : PendingMap) (k k' : JsonId) (h : k' ≠ k) :
    pmLookup (pmDelete m k) k' = pmLookup m k' := by
  induction m with
  | nil => rfl
  | cons e rest ih =>
      obtain ⟨k'', v⟩ := e
      by_cases hk : k'' = k
      · subst hk
        simp [pmDelete, pmLookup, Ne.symm h, ih]
      · by_cases hk' : k'' = k'
        · subst hk'
          simp [pmDelete, pmLookup, hk]
        · simp [pmDelete, pmLookup, hk, hk', ih]

theorem pmLookup_append (m₁ m₂ : PendingMap) (k : JsonId) :
    pmLookup (m₁ ++ m₂) k =
      (pmLookup m₁ k).rec (pmLookup m₂ k) (fun v => some v) := by
  induction m₁ with
  | nil => rfl
  | cons e rest ih =>
      obtain ⟨k', v⟩ := e
      by_cases h : k' = k
      · simp [pmLookup, h]
      · simp [pmLookup, h, ih]

theorem pmLookup_pmSet_self (m : PendingMap) (k : JsonId) (v : Nat) :
    pmLookup (pmSet m k v) k = some v := by
  unfold pmSet
  rw [pmLookup_append, pmLookup_pmDelete_self]
  simp [pmLookup]

theorem pmLookup_pmSet_other (m : PendingMap) (k k' : JsonId) (v : Nat) (h : k' ≠ k) :
    pmLookup (pmSet m k v) k' = pmLookup m k' := by
  unfold pmSet
  rw [pmLookup_append, pmLookup_pmDelete_other m k k' h]
  cases hl : pmLookup m k' with
  | none => simp [pmLookup, Ne.symm h]
  | some w => simp

namespace HttpServerTransport

/-- Immediate outcome of the synchronous prefix of the `POST /mcp` route
handler (index.ts lines 609-677): a direct error response, the 204
no-content reply to a notification, or the suspension point where the
handler awaits the response promise for a registered request id. -/
inductive ImmediateOutcome where
  | errorResponse (status : Nat) (envId : Option JsonId) (code : Int) (message : String)
  | noContent
  | awaitReply (rid : JsonId)
deriving DecidableEq, Repr

/-- HTTP status produced by an immediate outcome (`none` for
`awaitReply`, whose status is fixed only when the promise settles). -/
def ImmediateOutcome.status : ImmediateOutcome → Option Nat
  | .errorResponse s _ _ _ => some s
  | .noContent => some 204
  | .awaitReply _ => none

/-- Whether the immediate outcome carries a response body
(`res.status(204).send()` sends an empty body). -/
def ImmediateOutcome.hasBody : ImmediateOutcome → Bool
  | .errorResponse _ _ _ _ => true
  | .noContent => false
  | .awaitReply _ => false

/-- Result of the synchronous prefix of the route handler: the outcome,
the `pendingResponses` map after the call, and whether the message was
handed to `this.onmessage`. -/
structure SubmitResult where
  outcome : ImmediateOutcome
  pending : PendingMap
  handed : Bool
deriving DecidableEq, Repr

/-- Synchronous prefix of the `POST /mcp` route handler (index.ts lines
609-677), run atomically by Node's event loop.  `onmessageSet` models
whether `this.onmessage` is attached; `tok` is the token of the fresh
response promise created for a request.  The branches mirror the source
in order: the `jsonrpc` check (`!message.jsonrpc || message.jsonrpc !==
"2.0"`), the `method` check (`!message.method`), the notification branch
(`requestId === undefined || requestId === null`), and the request
branch, which first runs the promise executor — `pendingResponses.set`
plus the 30-second `setTimeout` — and only then tests `this.onmessage`. -/
def handleMcpPost (onmessageSet : Bool) (pending : PendingMap) (tok : Nat)
    (msg : RpcMessage) : SubmitResult :=
  if msg.jsonrpc ≠ some "2.0" then
    { outcome := .errorResponse 400 (jsEchoId msg.id) (-32600)
        "Invalid Request: missing or invalid jsonrpc field (must be \"2.0\")"
      pending := pending
      handed := false }
  else if ¬ strTruthy msg.method then
    { outcome := .errorResponse 400 (jsEchoId msg.id) (-32600)
        "Invalid Request: missing method field"
      pending := pending
      handed := false }
  else
    match msg.id with
    | none =>
        { outcome := .noContent
          pending := pending
          handed := onmessageSet }
    | some rid =>
        let pending' := pmSet pending rid tok
        if onmessageSet then
          { outcome := .awaitReply rid
            pending := pending'
            handed := true }
        else
          { outcome := .errorResponse 500 (some rid) (-32603)
              "Internal error: message handler not initialized"
            pending := pending'
            handed := false }

/-- Transport `send` (index.ts lines 771-785): if the outbound message
carries a non-null id and a resolver is pending under that id, the entry
is deleted and the resolver invoked (returned as `some token`);
otherwise — id-less message, or no pending entry (`console.warn`) —
nothing happens.  The function is total: no path throws. -/
def send (pending : PendingMap) (msg : OutMessage) : PendingMap × Option Nat :=
  match msg.id with
  | none => (pending, none)
  | some rid =>
      match pmLookup pending rid with
      | some tok => (pmDelete pending rid, some tok)
      | none => (pending, none)

/-- Terminal settlement of a request's response promise: `resolver(message)`
from `send`, or `reject(new Error("Request timeout"))` from the
`setTimeout` callback. -/
inductive Resolution where
  | replied (msg : OutMessage)
  | rejected (err : String)
deriving DecidableEq, Repr

/-- Settlement record: each promise token settles at most once; a second
resolve or reject of the same promise is a silent no-op in JS. -/
abbrev SettleMap := List (Nat × Resolution)

/-- Lookup of a token's settlement. -/
def settLookup : SettleMap → Nat → Option Resolution
  | [], _ => none
  | (t, r) :: rest, tok => if t = tok then some r else settLookup rest tok

/-- Settling a promise: records the resolution only if the token is
still unsettled (JS promises ignore later settlements). -/
def settleTok (s : SettleMap) (tok : Nat) (r : Resolution) : SettleMap :=
  match settLookup s tok with
  | some _ => s
  | none => s ++ [(tok, r)]

/-- Correlator state: the `pendingResponses` map plus the settlement
state of every response promise. -/
structure CState where
  pending : PendingMap
  settled : SettleMap
deriving DecidableEq, Repr

/-- Atomic events of the correlator.  Node's event loop runs each
callback to completion, so each event is one atomic state change:
`send` is the SDK calling `HttpServerTransport.send`; `timerFire rid tok`
is the 30-second `setTimeout` callback of the request registered with
token `tok` under id `rid` (it deletes the id and rejects its promise,
index.ts lines 655-658); `register rid tok` is the promise executor of a
new request (`pendingResponses.set(requestId, resolve)`, line 652). -/
inductive Event where
  | send (msg : OutMessage)
  | timerFire (rid : JsonId) (tok : Nat)
  | register (rid : JsonId) (tok : Nat)
deriving DecidableEq, Repr

/-- One atomic step of the correlator. -/
def step (s : CState) : Event → CState
  | .send msg =>
      match send s.pending msg with
      | (p', some tok) => { pending := p', settled := settleTok s.settled tok (.replied msg) }
      | (p', none) => { pending := p', settled := s.settled }
  | .timerFire rid tok =>
      { pending := pmDelete s.pending rid
        settled := settleTok s.settled tok (.rejected "Request timeout") }
  | .register rid tok =>
      { pending := pmSet s.pending rid tok, settled := s.settled }

/-- Running a list of events from a state. -/
def run (s : CState) (evs : List Event) : CState :=
  evs.foldl step s

/-- Whether token `tok`'s promise has settled. -/
def isSettled (s : CState) (tok : Nat) : Bool :=
  (settLookup s.settled tok).isSome

/-- Number of events in the trace at which token `tok` transitions from
unsettled to settled. -/
def settleCount (tok : Nat) : CState → List Event → Nat
  | _, [] => 0
  | s, e :: rest =>
      (if isSettled s tok = false ∧ isSettled (step s e) tok = true then 1 else 0)
        + settleCount tok (step s e) rest

/-- Trace discipline for one admitted request `(rid, tok)`: other
requests use other tokens; the timer registered for `rid` carries `tok`
and a timer carrying `tok` belongs to `rid` (ids are not reused while
pending, and each request has a fresh promise); `send` events are
unrestricted. -/
def eventOK (rid : JsonId) (tok : Nat) : Event → Bool
  | .send _ => true
  | .timerFire rid' tok' => decide ((rid' = rid) ↔ (tok' = tok))
  | .register rid' tok' => rid' ≠ rid && tok' ≠ tok

/-- Trace discipline for a discarded resolver `tok1`: no later event
reuses the token (each request's promise is fresh). -/
def avoidsTok (tok1 : Nat) : Event → Bool
  | .send _ => true
  | .timerFire _ tok' => tok' ≠ tok1
  | .register _ tok' => tok' ≠ tok1

/-- Atomicity of resolution for the entry `(rid, tok)`: the pending
entry is present exactly while the promise is unsettled — it is removed
in the same atomic step as the settlement. -/
def entryAtomic (rid : JsonId) (tok : Nat) (s : CState) : Prop :=
  (pmLookup s.pending rid = some tok ∧ settLookup s.settled tok = none) ∨
  (pmLookup s.pending rid = none ∧ (settLookup s.settled tok).isSome = true)

end HttpServerTransport

/-- Registered operation from the tool registry: name, description,
input schema, and an execution function.  `execute` models the `async`
JS function: a rejected promise / thrown error is `Except.error` with
the error's `message`. -/
structure Tool where
  name : String
  description : String
  inputSchema : JValue
  execute : JValue → Except String JValue

/-- Public projection of a tool: the shape exposed by every tool-listing
endpoint (`{ name, description, inputSchema }`, index.ts lines 48-52 and
317-321).  The type has no `execute` field, so the execution function is
never exposed. -/
structure ToolSummary where
  name : String
  description : String
  inputSchema : JValue

/-- Mapping of one tool to its listed form. -/
def toolSummary (t : Tool) : ToolSummary :=
  { name := t.name, description := t.description, inputSchema := t.inputSchema }

/-- SDK `ListToolsRequestSchema` handler (index.ts lines 47-53): its
result's `tools` field. -/
def listToolsRequestHandler (tools : List Tool) : List ToolSummary :=
  tools.map toolSummary

/-- One content item of a tool-call result (`{ type: "text", text }`). -/
structure ContentItem where
  type : String
  text : String
deriving DecidableEq, Repr

/-- Result value of the SDK `CallToolRequestSchema` handler.  On the
success path the source returns `{ content }` with no `isError` field
(modelled as `none`); on the caught-error path it returns
`{ content, isError: true }`. -/
structure CallToolResult where
  content : List ContentItem
  isError : Option Bool
deriving DecidableEq, Repr

/-- SDK `CallToolRequestSchema` handler (index.ts lines 56-86).
`Except.error` models a thrown error (the `throw new Error` for an
unknown tool); `Except.ok` models a normal return.  A failure of
`tool.execute` is caught and returned as a normal result whose content
is `"Error: " + message` with `isError: true`. -/
def callToolRequestHandler (tools : List Tool) (paramsName : String)
    (paramsArguments : Option JValue) : Except String CallToolResult :=
  let args := jValueOrElse paramsArguments (.jobj [])
  match tools.find? (fun t => t.name = paramsName) with
  | none => .error ("Unknown tool: " ++ paramsName)
  | some tool =>
      match tool.execute args with
      | .ok result =>
          .ok { content := [{ type := "text", text := jsonStringify result }]
                isError := none }
      | .error emsg =>
          .ok { content := [{ type := "text", text := "Error: " ++ emsg }]
                isError := some true }

/-- Request body of the legacy `POST /mcp` endpoint (index.ts lines
310-371): the handler reads `method`, `params?.name`, `params?.toolName`,
`params?.arguments` and `params?.args`; absent `params` and absent
fields are both `none`. -/
structure McpBody where
  method : Option String
  paramsName : Option String
  paramsToolName : Option String
  paramsArguments : Option JValue
  paramsArgs : Option JValue

/-- Responses of the legacy `POST /mcp` endpoint, each constructor
carrying the HTTP status and the JSON body shape the source emits. -/
inductive McpPostResponse where
  | toolsList (status : Nat) (tools : List ToolSummary)
  | callSuccess (status : Nat) (result : JValue)
  | callFailure (status : Nat) (error : String)
  | toolNameRequired (status : Nat) (error : String) (availableTools : List String)
  | unknownTool (status : Nat) (error : String) (availableTools : List String)
  | unknownMethod (status : Nat) (error : String) (supportedMethods : List String)

/-- HTTP status of a legacy `/mcp` response. -/
def McpPostResponse.status : McpPostResponse → Nat
  | .toolsList s _ => s
  | .callSuccess s _ => s
  | .callFailure s _ => s
  | .toolNameRequired s _ _ => s
  | .unknownTool s _ _ => s
  | .unknownMethod s _ _ => s

/-- Rendering of a possibly-absent `method` inside a JS template string
(`Unknown method: ${method}`). -/
def methodShown : Option String → String
  | some s => s
  | none => "undefined"

/-- Legacy `POST /mcp` route handler (index.ts lines 310-371).  Branch
order follows the source: `tools/list` / `list_tools` answer with the
tool summaries; `tools/call` / `call_tool` resolve the tool name via
`params?.name || params?.toolName`, reject a falsy name (400), reject an
unregistered name (404 with `availableTools`), invoke the tool on
`params?.arguments || params?.args || {}`, and map a successful
execution to `{ success: true, result }` (200) and a thrown execution
error to `{ success: false, error }` (500); any other method yields a
400 listing the supported methods. -/
def mcpPost (tools : List Tool) (body : McpBody) : McpPostResponse :=
  if body.method = some "tools/list" ∨ body.method = some "list_tools" then
    .toolsList 200 (tools.map toolSummary)
  else if body.method = some "tools/call" ∨ body.method = some "call_tool" then
    let toolName := jsOrStr body.paramsName body.paramsToolName
    if ¬ strTruthy toolName then
      .toolNameRequired 400 "Tool name is required" (tools.map (fun t => t.name))
    else
      let nm := toolName.getD ""
      match tools.find? (fun t => t.name = nm) with
      | none => .unknownTool 404 ("Unknown tool: " ++ nm) (tools.map (fun t => t.name))
      | some tool =>
          let args := jValueOrElse body.paramsArguments
            (jValueOrElse body.paramsArgs (.jobj []))
          match tool.execute args with
          | .ok result => .callSuccess 200 result
          | .error m => .callFailure 500 m
  else
    .unknownMethod 400 ("Unknown method: " ++ methodShown body.method)
      ["tools/list", "tools/call", "list_tools", "call_tool"]

namespace HttpServerTransport

theorem settLookup_append (s₁ s₂ : SettleMap) (t : Nat) :
    settLookup (s₁ ++ s₂) t =
      (settLookup s₁ t).rec (settLookup s₂ t) (fun r => some r) := by
  induction s₁ with
  | nil => rfl
  | cons e rest ih =>
      obtain ⟨t', r⟩ := e
      by_cases h : t' = t
      · simp [settLookup, h]
      · simp [settLookup, h, ih]

theorem settLookup_settleTok_self_none (s : SettleMap) (tok : Nat) (r : Resolution)
    (h : settLookup s tok = none) :
    settLookup (settleTok s tok r) tok = some r := by
  unfold settleTok
  rw [h, settLookup_append, h]
  simp [settLookup]

theorem settleTok_of_some (s : SettleMap) (tok : Nat) (r x : Resolution)
    (h : settLookup s tok = some x) : settleTok s tok r = s := by
  unfold settleTok
  rw [h]

theorem settLookup_settleTok_other (s : SettleMap) (tok t' : Nat) (r : Resolution)
    (h : t' ≠ tok) :
    settLookup (settleTok s tok r) t' = settLookup s t' := by
  unfold settleTok
  cases hl : settLookup s tok with
  | some x => rfl
  | none =>
      rw [settLookup_append]
      cases h2 : settLookup s t' with
      | none => simp [settLookup, Ne.symm h]
      | some y => simp

theorem settLookup_settleTok_isSome (s : SettleMap) (tok t' : Nat) (r : Resolution)
    (h : (settLookup s t').isSome = true) :
    (settLookup (settleTok s tok r) t').isSome = true := by
  by_cases he : t' = tok
  · subst he
    cases hl : settLookup s t' with
    | none => rw [hl] at h; simp at h
    | some x => rw [settleTok_of_some s t' r x hl, hl]; rfl
  · rw [settLookup_settleTok_other s tok t' r he]
    exact h

theorem isSome_settLookup_settleTok (s : SettleMap) (tok : Nat) (r : Resolution) :
    (settLookup (settleTok s tok r) tok).isSome = true := by
  cases hl : settLookup s tok with
  | none => rw [settLookup_settleTok_self_none s tok r hl]; rfl
  | some x => rw [settleTok_of_some s tok r x hl, hl]; rfl

/-- Step on a `send` event whose message has a null or absent id: the
state is untouched. -/
theorem step_send_none (p : PendingMap) (st : SettleMap) (pl : String) :
    step ⟨p, st⟩ (.send ⟨none, pl⟩) = ⟨p, st⟩ := rfl

/-- Step on a `send` event whose id has no pending entry: a no-op
(`console.warn` only). -/
theorem step_send_miss (p : PendingMap) (st : SettleMap) (pl : String) (rid : JsonId)
    (hl : pmLookup p rid = none) :
    step ⟨p, st⟩ (.send ⟨some rid, pl⟩) = ⟨p, st⟩ := by
  simp only [step, send]
  rw [hl]

/-- Step on a `send` event whose id has a pending resolver: the entry is
deleted and the resolver's promise settles with the message. -/
theorem step_send_hit (p : PendingMap) (st : SettleMap) (pl : String) (rid : JsonId)
    (tok : Nat) (hl : pmLookup p rid = some tok) :
    step ⟨p, st⟩ (.send ⟨some rid, pl⟩) =
      ⟨pmDelete p rid, settleTok st tok (.replied ⟨some rid, pl⟩)⟩ := by
  simp only [step, send]
  rw [hl]

/-- Step on the 30-second timer callback: deletes the id and rejects the
promise with the request-timeout error. -/
theorem step_timerFire (p : PendingMap) (st : SettleMap) (rid : JsonId) (tok : Nat) :
    step ⟨p, st⟩ (.timerFire rid tok) =
      ⟨pmDelete p rid, settleTok st tok (.rejected "Request timeout")⟩ := rfl

/-- Step on a registration: `pendingResponses.set`. -/
theorem step_register (p : PendingMap) (st : SettleMap) (rid : JsonId) (tok : Nat) :
    step ⟨p, st⟩ (.register rid tok) = ⟨pmSet p rid tok, st⟩ := rfl

theorem run_nil (s : CState) : run s [] = s := rfl

theorem run_cons (s : CState) (e : Event) (evs : List Event) :
    run s (e :: evs) = run (step s e) evs := rfl

theorem run_append (s : CState) (l₁ l₂ : List Event) :
    run s (l₁ ++ l₂) = run (run s l₁) l₂ :=
  List.foldl_append step s l₁ l₂

theorem isSettled_step_mono (s : CState) (e : Event) (tok : Nat)
    (h : isSettled s tok = true) : isSettled (step s e) tok = true := by
  obtain ⟨p, st⟩ := s
  unfold isSettled at *
  cases e with
  | send msg =>
      obtain ⟨mid, pl⟩ := msg
      cases mid with
      | none => rw [step_send_none p st pl]; exact h
      | some rid =>
          cases hl : pmLookup p rid with
          | none => rw [step_send_miss p st pl rid hl]; exact h
          | some t' =>
              rw [step_send_hit p st pl rid t' hl]
              exact settLookup_settleTok_isSome st t' tok _ h
  | timerFire rid t' =>
      rw [step_timerFire p st rid t']
      exact settLookup_settleTok_isSome st t' tok _ h
  | register rid t' =>
      rw [step_register p st rid t']
      exact h

theorem isSettled_run_mono (s : CState) (evs : List Event) (tok : Nat)
    (h : isSettled s tok = true) : isSettled (run s evs) tok = true := by
  induction evs generalizing s with
  | nil => exact h
  | cons e rest ih =>
      rw [run_cons]
      exact ih (step s e) (isSettled_step_mono s e tok h)

/-- A settlement transition happens at most once along a trace: the
count is 0 from a settled state, and from an unsettled state it is 1
exactly when the trace ends settled. -/
theorem settleCount_eq (tok : Nat) (evs : List Event) (s : CState) :
    settleCount tok s evs =
      if isSettled s tok = true then 0
      else if isSettled (run s evs) tok = true then 1 else 0 := by
  induction evs generalizing s with
  | nil => by_cases h : isSettled s tok = true <;> simp [settleCount, run_nil, h]
  | cons e rest ih =>
      unfold settleCount
      rw [ih (step s e), run_cons]
      by_cases h : isSettled s tok = true
      · have h2 := isSettled_step_mono s e tok h
        have h3 := isSettled_run_mono (step s e) rest tok h2
        simp [h, h2, h3]
      · by_cases h2 : isSettled (step s e) tok = true
        · have h3 := isSettled_run_mono (step s e) rest tok h2
          simp [h, h2, h3]
        · simp [h, h2]

theorem isSettled_run_of_fire (s : CState) (evs : List Event) (rid : JsonId) (tok : Nat)
    (hfire : Event.timerFire rid tok ∈ evs) :
    isSettled (run s evs) tok = true := by
  obtain ⟨l₁, l₂, rfl⟩ := List.append_of_mem hfire
  rw [run_append, run_cons]
  apply isSettled_run_mono
  obtain ⟨p, st⟩ := run s l₁
  rw [step_timerFire p st rid tok]
  unfold isSettled
  exact isSome_settLookup_settleTok st tok _

/-- Full invariant for one admitted entry `(rid, tok)`: the entry is
present exactly while the promise is unsettled, and no other id maps to
this request's resolver. -/
def Inv (rid : JsonId) (tok : Nat) (s : CState) : Prop :=
  entryAtomic rid tok s ∧ ∀ rid', rid' ≠ rid → pmLookup s.pending rid' ≠ some tok

theorem inv_def (rid : JsonId) (tok : Nat) (p : PendingMap) (st : SettleMap) :
    Inv rid tok ⟨p, st⟩ ↔
      (((pmLookup p rid = some tok ∧ settLookup st tok = none) ∨
        (pmLookup p rid = none ∧ (settLookup st tok).isSome = true)) ∧
       ∀ rid', rid' ≠ rid → pmLookup p rid' ≠ some tok) := Iff.rfl

theorem inv_step (rid : JsonId) (tok : Nat) (s : CState) (e : Event)
    (hI : Inv rid tok s) (hok : eventOK rid tok e = true) :
    Inv rid tok (step s e) := by
  obtain ⟨p, st⟩ := s
  rw [inv_def] at hI
  obtain ⟨hA, hO⟩ := hI
  cases e with
  | send msg =>
      obtain ⟨mid, pl⟩ := msg
      cases mid with
      | none => rw [step_send_none p st pl, inv_def]; exact ⟨hA, hO⟩
      | some rid'' =>
          cases hl : pmLookup p rid'' with
          | none => rw [step_send_miss p st pl rid'' hl, inv_def]; exact ⟨hA, hO⟩
          | some t'' =>
              rw [step_send_hit p st pl rid'' t'' hl, inv_def]
              by_cases hr : rid'' = rid
              · subst hr
                rcases hA with ⟨hp, hs⟩ | ⟨hp, hs⟩
                · rw [hl] at hp
                  obtain rfl : t'' = tok := Option.some.inj hp
                  refine ⟨Or.inr ⟨pmLookup_pmDelete_self p rid'', isSome_settLookup_settleTok st t'' _⟩, ?_⟩
                  intro rid' hne
                  rw [pmLookup_pmDelete_other p rid'' rid' hne]
                  exact hO rid' hne
                · rw [hl] at hp
                  exact Option.noConfusion hp
              · have ht : t'' ≠ tok := by
                  intro heq
                  subst heq
                  exact hO rid'' hr hl
                refine ⟨?_, ?_⟩
                · rcases hA with ⟨hp, hs⟩ | ⟨hp, hs⟩
                  · refine Or.inl ⟨?_, ?_⟩
                    · rw [pmLookup_pmDelete_other p rid'' rid (Ne.symm hr)]
                      exact hp
                    · rw [settLookup_settleTok_other st t'' tok _ (Ne.symm ht)]
                      exact hs
                  · refine Or.inr ⟨?_, ?_⟩
                    · rw [pmLookup_pmDelete_other p rid'' rid (Ne.symm hr)]
                      exact hp
                    · exact settLookup_settleTok_isSome st t'' tok _ hs
                · intro rid' hne
                  by_cases hr' : rid' = rid''
                  · subst hr'
                    rw [pmLookup_pmDelete_self]
                    exact Option.noConfusion
                  · rw [pmLookup_pmDelete_other p rid'' rid' hr']
                    exact hO rid' hne
  | timerFire rid' t' =>
      rw [step_timerFire p st rid' t', inv_def]
      have hiff : (rid' = rid) ↔ (t' = tok) := by
        simpa [eventOK] using hok
      by_cases hr : rid' = rid
      · subst hr
        obtain rfl : t' = tok := hiff.mp rfl
        refine ⟨Or.inr ⟨pmLookup_pmDelete_self p rid', isSome_settLookup_settleTok st t' _⟩, ?_⟩
        intro rid'' hne
        rw [pmLookup_pmDelete_other p rid' rid'' hne]
        exact hO rid'' hne
      · have ht : t' ≠ tok := fun heq => hr (hiff.mpr heq)
        refine ⟨?_, ?_⟩
        · rcases hA with ⟨hp, hs⟩ | ⟨hp, hs⟩
          · refine Or.inl ⟨?_, ?_⟩
            · rw [pmLookup_pmDelete_other p rid' rid (Ne.symm hr)]
              exact hp
            · rw [settLookup_settleTok_other st t' tok _ (Ne.symm ht)]
              exact hs
          · refine Or.inr ⟨?_, ?_⟩
            · rw [pmLookup_pmDelete_other p rid' rid (Ne.symm hr)]
              exact hp
            · exact settLookup_settleTok_isSome st t' tok _ hs
        · intro rid'' hne
          by_cases hr' : rid'' = rid'
          · subst hr'
            rw [pmLookup_pmDelete_self]
            exact Option.noConfusion
          · rw [pmLookup_pmDelete_other p rid' rid'' hr']
            exact hO rid'' hne
  | register rid' t' =>
      rw [step_register p st rid' t', inv_def]
      have hok2 : rid' ≠ rid ∧ t' ≠ tok := by
        simpa [eventOK] using hok
      refine ⟨?_, ?_⟩
      · rcases hA with ⟨hp, hs⟩ | ⟨hp, hs⟩
        · exact Or.inl ⟨by rw [pmLookup_pmSet_other p rid' rid t' (Ne.symm hok2.1)]; exact hp, hs⟩
        · exact Or.inr ⟨by rw [pmLookup_pmSet_other p rid' rid t' (Ne.symm hok2.1)]; exact hp, hs⟩
      · intro rid'' hne
        by_cases hr' : rid'' = rid'
        · subst hr'
          rw [pmLookup_pmSet_self]
          intro hcontra
          exact hok2.2 (Option.some.inj hcontra)
        · rw [pmLookup_pmSet_other p rid' rid'' t' hr']
          exact hO rid'' hne

theorem inv_run (rid : JsonId) (tok : Nat) (s : CState) (evs : List Event)
    (hI : Inv rid tok s) (hok : ∀ e ∈ evs, eventOK rid tok e = true) :
    Inv rid tok (run s evs) := by
  induction evs generalizing s with
  | nil => exact hI
  | cons e rest ih =>
      rw [run_cons]
      exact ih (step s e) (inv_step rid tok s e hI (hok e (List.mem_cons_self e rest)))
        (fun e' he' => hok e' (List.mem_cons_of_mem e he'))

/-- Freshness invariant for a discarded resolver: no pending id maps to
it and its promise is unsettled. -/
def NoTok (tok : Nat) (s : CState) : Prop :=
  (∀ rid', pmLookup s.pending rid' ≠ some tok) ∧ settLookup s.settled tok = none

theorem noTok_def (tok : Nat) (p : PendingMap) (st : SettleMap) :
    NoTok tok ⟨p, st⟩ ↔
      ((∀ rid', pmLookup p rid' ≠ some tok) ∧ settLookup st tok = none) := Iff.rfl

theorem noTok_step (tok : Nat) (s : CState) (e : Event)
    (hN : NoTok tok s) (hok : avoidsTok tok e = true) :
    NoTok tok (step s e) := by
  obtain ⟨p, st⟩ := s
  rw [noTok_def] at hN
  obtain ⟨hP, hS⟩ := hN
  cases e with
  | send msg =>
      obtain ⟨mid, pl⟩ := msg
      cases mid with
      | none => rw [step_send_none p st pl, noTok_def]; exact ⟨hP, hS⟩
      | some rid'' =>
          cases hl : pmLookup p rid'' with
          | none => rw [step_send_miss p st pl rid'' hl, noTok_def]; exact ⟨hP, hS⟩
          | some t'' =>
              rw [step_send_hit p st pl rid'' t'' hl, noTok_def]
              have ht : t'' ≠ tok := by
                intro heq
                subst heq
                exact hP rid'' hl
              refine ⟨?_, ?_⟩
              · intro rid'
                by_cases hr' : rid' = rid''
                · subst hr'
                  rw [pmLookup_pmDelete_self]
                  exact Option.noConfusion
                · rw [pmLookup_pmDelete_other p rid'' rid' hr']
                  exact hP rid'
              · rw [settLookup_settleTok_other st t'' tok _ (Ne.symm ht)]
                exact hS
  | timerFire rid' t' =>
      rw [step_timerFire p st rid' t', noTok_def]
      have ht : t' ≠ tok := by simpa [avoidsTok] using hok
      refine ⟨?_, ?_⟩
      · intro rid''
        by_cases hr' : rid'' = rid'
        · subst hr'
          rw [pmLookup_pmDelete_self]
          exact Option.noConfusion
        · rw [pmLookup_pmDelete_other p rid' rid'' hr']
          exact hP rid''
      · rw [settLookup_settleTok_other st t' tok _ (Ne.symm ht)]
        exact hS
  | register rid' t' =>
      rw [step_register p st rid' t', noTok_def]
      have ht : t' ≠ tok := by simpa [avoidsTok] using hok
      refine ⟨?_, ?_⟩
      · intro rid''
        by_cases hr' : rid'' = rid'
        · subst hr'
          rw [pmLookup_pmSet_self]
          intro hcontra
          exact ht (Option.some.inj hcontra)
        · rw [pmLookup_pmSet_other p rid' rid'' t' hr']
          exact hP rid''
      · exact hS

theorem noTok_run (tok : Nat) (s : CState) (evs : List Event)
    (hN : NoTok tok s) (hok : ∀ e ∈ evs, avoidsTok tok e = true) :
    NoTok tok (run s evs) := by
  induction evs generalizing s with
  | nil => exact hN
  | cons e rest ih =>
      rw [run_cons]
      exact ih (step s e) (noTok_step tok s e hN (hok e (List.mem_cons_self e rest)))
        (fun e' he' => hok e' (List.mem_cons_of_mem e he'))

end HttpServerTransport

open HttpServerTransport

/-- C10: every outbound message passed to `send` whose id is undefined
or null is silently discarded: `send` completes normally (it is a total
function — no path raises), delivers the message to no caller (`none`),
and leaves the pending correlation map unchanged; likewise the
correlator state is untouched. -/
theorem send_discards_idless_outbound (pending : PendingMap) (st : SettleMap)
    (pl : String) (msg : OutMessage) (h : msg.id = none) :
    HttpServerTransport.send pending msg = (pending, none) ∧
    step ⟨pending, st⟩ (.send ⟨none, pl⟩) = ⟨pending, st⟩ := by
  constructor
  · unfold HttpServerTransport.send
    rw [h]
  · exact step_send_none pending st pl

theorem send_discards_idless_outbound_witness :
    HttpServerTransport.send [(JsonId.num 1, 0)] ⟨none, "server notice"⟩ =
      ([(JsonId.num 1, 0)], none) ∧
    step ⟨[(JsonId.num 1, 0)], []⟩ (.send ⟨none, "server notice"⟩) =
      ⟨[(JsonId.num 1, 0)], []⟩ :=
  send_discards_idless_outbound [(JsonId.num 1, 0)] [] "server notice" ⟨none, "server notice"⟩ rfl

/-- C5: an inbound message with valid `jsonrpc` and `method` but absent
or null `id` is a notification: with the shared handler attached it is
handed to the handler, no pending correlation entry is created (the map
is returned unchanged), and the HTTP response is status 204 with an
empty body, so no outbound message is ever produced for it. -/
theorem notification_no_entry_204 (att : Bool) (pending : PendingMap) (tok : Nat)
    (msg : RpcMessage) (hv : msg.jsonrpc = some "2.0")
    (hm : strTruthy msg.method = true) (hid : msg.id = none) (hatt : att = true) :
    handleMcpPost att pending tok msg =
      { outcome := .noContent, pending := pending, handed := true } ∧
    ImmediateOutcome.status .noContent = some 204 ∧
    ImmediateOutcome.hasBody .noContent = false := by
  subst hatt
  refine ⟨?_, rfl, rfl⟩
  simp [handleMcpPost, hv, hm, hid]

theorem notification_no_entry_204_witness :
    handleMcpPost true [] 0 ⟨some "2.0", none, some "initialized"⟩ =
      { outcome := .noContent, pending := [], handed := true } ∧
    ImmediateOutcome.status .noContent = some 204 ∧
    ImmediateOutcome.hasBody .noContent = false :=
  notification_no_entry_204 true [] 0 ⟨some "2.0", none, some "initialized"⟩
    rfl (by decide) rfl rfl

/-- C6 counterexample: for the inbound message
`{jsonrpc: "1.0", id: 0, method: "x"}` the code produces the error
message with the `(must be "2.0")` suffix — not the exact message the
claim states — and echoes `null` instead of the present id `0`, because
`message.id || null` discards the falsy id `0`. -/
theorem invalid_jsonrpc_counterexample :
    (handleMcpPost true [] 0 ⟨some "1.0", some (.num 0), some "x"⟩).outcome =
      .errorResponse 400 none (-32600)
        "Invalid Request: missing or invalid jsonrpc field (must be \"2.0\")" ∧
    (handleMcpPost true [] 0 ⟨some "1.0", some (.num 0), some "x"⟩).outcome ≠
      .errorResponse 400 (some (.num 0)) (-32600)
        "Invalid Request: missing or invalid jsonrpc field" := by
  constructor
  · rfl
  · decide

/-- C6 amended: whenever the `jsonrpc` field is not exactly `"2.0"`,
`submit` fails immediately with HTTP 400, code -32600, and the message
`Invalid Request: missing or invalid jsonrpc field (must be "2.0")`;
the envelope id is the inbound id if that id is truthy (non-zero number
or non-empty string) and null otherwise; no pending entry is created and
nothing is handed to the handler. -/
theorem invalid_jsonrpc_error_envelope (att : Bool) (pending : PendingMap) (tok : Nat)
    (msg : RpcMessage) (h : msg.jsonrpc ≠ some "2.0") :
    handleMcpPost att pending tok msg =
      { outcome := .errorResponse 400 (jsEchoId msg.id) (-32600)
          "Invalid Request: missing or invalid jsonrpc field (must be \"2.0\")"
        pending := pending
        handed := false } := by
  unfold handleMcpPost
  rw [if_pos h]

theorem invalid_jsonrpc_error_envelope_witness :
    handleMcpPost true [] 0 ⟨some "1.0", some (.num 3), some "x"⟩ =
      { outcome := .errorResponse 400 (some (.num 3)) (-32600)
          "Invalid Request: missing or invalid jsonrpc field (must be \"2.0\")"
        pending := []
        handed := false } :=
  invalid_jsonrpc_error_envelope true [] 0 ⟨some "1.0", some (.num 3), some "x"⟩ (by decide)

/-- C2 counterexample: submitting the request
`{jsonrpc: "2.0", id: 1, method: "x"}` with no handler attached does
return the 500 internal error, but its message is
`Internal error: message handler not initialized` (not the exact string
the claim states), and the pending map is NOT unchanged: the promise
executor inserts the entry before the handler check, so an entry for id
1 exists after the call. -/
theorem no_handler_counterexample :
    (handleMcpPost false [] 0 ⟨some "2.0", some (.num 1), some "x"⟩).outcome =
      .errorResponse 500 (some (.num 1)) (-32603)
        "Internal error: message handler not initialized" ∧
    (handleMcpPost false [] 0 ⟨some "2.0", some (.num 1), some "x"⟩).pending ≠
      ([] : PendingMap) := by
  constructor
  · rfl
  · decide

/-- C2 amended: with no handler attached, submitting a request (valid
envelope, present id) fails immediately with the 500 internal error
`Internal error: message handler not initialized`, but a pending
correlation entry for that id IS created by the call (the promise
executor runs before the handler check); the entry is removed only when
the 30-second timeout fires. -/
theorem no_handler_error_still_registers (pending : PendingMap) (tok : Nat)
    (msg : RpcMessage) (rid : JsonId) (hv : msg.jsonrpc = some "2.0")
    (hm : strTruthy msg.method = true) (hid : msg.id = some rid) :
    handleMcpPost false pending tok msg =
      { outcome := .errorResponse 500 (some rid) (-32603)
          "Internal error: message handler not initialized"
        pending := pmSet pending rid tok
        handed := false } ∧
    pmLookup (pmSet pending rid tok) rid = some tok ∧
    ∀ st : SettleMap,
      pmLookup (step ⟨pmSet pending rid tok, st⟩ (.timerFire rid tok)).pending rid = none := by
  refine ⟨?_, pmLookup_pmSet_self pending rid tok, ?_⟩
  · simp [handleMcpPost, hv, hm, hid]
  · intro st
    rw [step_timerFire]
    exact pmLookup_pmDelete_self _ _

theorem no_handler_error_still_registers_witness :
    handleMcpPost false [] 0 ⟨some "2.0", some (.num 1), some "x"⟩ =
      { outcome := .errorResponse 500 (some (.num 1)) (-32603)
          "Internal error: message handler not initialized"
        pending := pmSet [] (.num 1) 0
        handed := false } ∧
    pmLookup (pmSet [] (.num 1) 0) (.num 1) = some 0 ∧
    ∀ st : SettleMap,
      pmLookup (step ⟨pmSet [] (.num 1) 0, st⟩ (.timerFire (.num 1) 0)).pending (.num 1) = none :=
  no_handler_error_still_registers [] 0 ⟨some "2.0", some (.num 1), some "x"⟩ (.num 1)
    rfl (by decide) rfl

/-- C3: (i) when the 30-second timer of a pending, still-unresolved
entry fires, the entry is removed from the pending map and the awaiting
caller's promise is rejected with the `Request timeout` failure; (ii)
resolving (via `send`) an id with no pending entry — unknown, already
timed out, or already resolved — is a no-op: `send` is a total function
(no path raises), returns the map unchanged and delivers to no caller,
and the correlator state is unchanged. -/
theorem timeout_rejects_and_unknown_resolve_noop (p : PendingMap) (st : SettleMap)
    (rid : JsonId) (tok : Nat) (_hpend : pmLookup p rid = some tok)
    (hunsettled : settLookup st tok = none) :
    (pmLookup (step ⟨p, st⟩ (.timerFire rid tok)).pending rid = none ∧
     settLookup (step ⟨p, st⟩ (.timerFire rid tok)).settled tok =
       some (.rejected "Request timeout")) ∧
    (∀ (p' : PendingMap) (st' : SettleMap) (rid' : JsonId) (pl' : String),
       pmLookup p' rid' = none →
       HttpServerTransport.send p' ⟨some rid', pl'⟩ = (p', none) ∧
       step ⟨p', st'⟩ (.send ⟨some rid', pl'⟩) = ⟨p', st'⟩) := by
  constructor
  · rw [step_timerFire]
    exact ⟨pmLookup_pmDelete_self p rid, settLookup_settleTok_self_none st tok _ hunsettled⟩
  · intro p' st' rid' pl' hmiss
    constructor
    · unfold HttpServerTransport.send
      simp only [hmiss]
    · exact step_send_miss p' st' pl' rid' hmiss

theorem timeout_rejects_and_unknown_resolve_noop_witness :
    (pmLookup (step ⟨[(JsonId.num 5, 3)], []⟩ (.timerFire (.num 5) 3)).pending (.num 5) = none ∧
     settLookup (step ⟨[(JsonId.num 5, 3)], []⟩ (.timerFire (.num 5) 3)).settled 3 =
       some (.rejected "Request timeout")) ∧
    (∀ (p' : PendingMap) (st' : SettleMap) (rid' : JsonId) (pl' : String),
       pmLookup p' rid' = none →
       HttpServerTransport.send p' ⟨some rid', pl'⟩ = (p', none) ∧
       step ⟨p', st'⟩ (.send ⟨some rid', pl'⟩) = ⟨p', st'⟩) :=
  timeout_rejects_and_unknown_resolve_noop [(JsonId.num 5, 3)] [] (.num 5) 3 rfl rfl

/-- C7: for a `tools/list` request the legacy `/mcp` endpoint responds
200 with a `tools` array holding exactly one summary per registered
operation (so its length equals the number of registered operations);
the SDK list handler produces the same array; each element exposes
exactly the operation's name, description and input schema — the
`ToolSummary` type has no `execute` field, so the execution function is
never exposed. -/
theorem tools_list_enumerates_all (tools : List Tool) (body : McpBody)
    (hm : body.method = some "tools/list") :
    mcpPost tools body = .toolsList 200 (tools.map toolSummary) ∧
    (tools.map toolSummary).length = tools.length ∧
    listToolsRequestHandler tools = tools.map toolSummary ∧
    ∀ t ∈ tools, toolSummary t =
      { name := t.name, description := t.description, inputSchema := t.inputSchema } := by
  refine ⟨?_, List.length_map _ _, rfl, fun t _ => rfl⟩
  unfold mcpPost
  rw [if_pos (Or.inl hm)]

theorem tools_list_enumerates_all_witness :
    mcpPost [⟨"deleteUser", "Deletes a user", .jobj [], fun _ => .ok .jnull⟩]
        ⟨some "tools/list", none, none, none, none⟩ =
      .toolsList 200
        ([⟨"deleteUser", "Deletes a user", .jobj [], fun _ => .ok .jnull⟩].map toolSummary) ∧
    ([(⟨"deleteUser", "Deletes a user", .jobj [], fun _ => .ok .jnull⟩ : Tool)].map toolSummary).length =
      [(⟨"deleteUser", "Deletes a user", .jobj [], fun _ => .ok .jnull⟩ : Tool)].length ∧
    listToolsRequestHandler [⟨"deleteUser", "Deletes a user", .jobj [], fun _ => .ok .jnull⟩] =
      [(⟨"deleteUser", "Deletes a user", .jobj [], fun _ => .ok .jnull⟩ : Tool)].map toolSummary ∧
    ∀ t ∈ [(⟨"deleteUser", "Deletes a user", .jobj [], fun _ => .ok .jnull⟩ : Tool)],
      toolSummary t =
        { name := t.name, description := t.description, inputSchema := t.inputSchema } :=
  tools_list_enumerates_all [⟨"deleteUser", "Deletes a user", .jobj [], fun _ => .ok .jnull⟩]
    ⟨some "tools/list", none, none, none, none⟩ rfl

/-- C8: on the legacy `/mcp` endpoint, a `tools/call` request naming an
operation that is not registered yields the 404 error envelope
`Unknown tool: <name>` enumerating the names of all currently registered
operations in `availableTools`; naming a registered operation whose
execution succeeds yields the 200 success envelope embedding the
operation's raw result. -/
theorem tools_call_unknown_and_success (tools : List Tool) (body : McpBody) (nm : String)
    (hm : body.method = some "tools/call")
    (hname : jsOrStr body.paramsName body.paramsToolName = some nm)
    (hnm : nm ≠ "") :
    (tools.find? (fun t => t.name = nm) = none →
      mcpPost tools body =
        .unknownTool 404 ("Unknown tool: " ++ nm) (tools.map (fun t => t.name))) ∧
    (∀ (t : Tool) (v : JValue),
      tools.find? (fun t => t.name = nm) = some t →
      t.execute (jValueOrElse body.paramsArguments
        (jValueOrElse body.paramsArgs (.jobj []))) = .ok v →
      mcpPost tools body = .callSuccess 200 v) := by
  have h1 : ¬(body.method = some "tools/list" ∨ body.method = some "list_tools") := by
    rw [hm]
    decide
  have h2 : body.method = some "tools/call" ∨ body.method = some "call_tool" := Or.inl hm
  have h3 : strTruthy (jsOrStr body.paramsName body.paramsToolName) = true := by
    rw [hname]
    simpa [strTruthy] using hnm
  have h4 : (jsOrStr body.paramsName body.paramsToolName).getD "" = nm := by
    rw [hname]
    rfl
  constructor
  · intro hmiss
    unfold mcpPost
    rw [if_neg h1, if_pos h2]
    simp only [h3, not_true, if_neg, if_false]
    rw [h4, hmiss]
  · intro t v hfind hexec
    unfold mcpPost
    rw [if_neg h1, if_pos h2]
    simp only [h3, not_true, if_neg, if_false]
    rw [h4, hfind]
    show (match t.execute (jValueOrElse body.paramsArguments
        (jValueOrElse body.paramsArgs (.jobj []))) with
      | .ok result => McpPostResponse.callSuccess 200 result
      | .error m => McpPostResponse.callFailure 500 m) = McpPostResponse.callSuccess 200 v
    rw [hexec]

theorem tools_call_unknown_and_success_witness :
    mcpPost [⟨"createUser", "Creates a user", .jobj [], fun _ => .ok (.jstr "ok")⟩]
        ⟨some "tools/call", some "nonexistent_tool", none, some (.jobj []), none⟩ =
      .unknownTool 404 "Unknown tool: nonexistent_tool" ["createUser"] ∧
    mcpPost [⟨"createUser", "Creates a user", .jobj [], fun _ => .ok (.jstr "ok")⟩]
        ⟨some "tools/call", some "createUser", none, some (.jobj []), none⟩ =
      .callSuccess 200 (.jstr "ok") := by
  constructor
  · exact (tools_call_unknown_and_success
      [⟨"createUser", "Creates a user", .jobj [], fun _ => .ok (.jstr "ok")⟩]
      ⟨some "tools/call", some "nonexistent_tool", none, some (.jobj []), none⟩
      "nonexistent_tool" rfl rfl (by decide)).1 rfl
  · exact (tools_call_unknown_and_success
      [⟨"createUser", "Creates a user", .jobj [], fun _ => .ok (.jstr "ok")⟩]
      ⟨some "tools/call", some "createUser", none, some (.jobj []), none⟩
      "createUser" rfl rfl (by decide)).2
      ⟨"createUser", "Creates a user", .jobj [], fun _ => .ok (.jstr "ok")⟩
      (.jstr "ok") rfl rfl

/-- C4 counterexample: on the legacy `/mcp` endpoint, invoking the
registered tool `t` whose execute function throws `boom` produces the
HTTP 500 failure envelope `{success: false, error: "boom"}` — an
error-status response, not a successful envelope with error-flagged
content: the response status is 500, not 200. -/
theorem execution_failure_counterexample :
    mcpPost [⟨"t", "d", .jobj [], fun _ => .error "boom"⟩]
        ⟨some "tools/call", some "t", none, none, none⟩ =
      .callFailure 500 "boom" ∧
    (mcpPost [⟨"t", "d", .jobj [], fun _ => .error "boom"⟩]
        ⟨some "tools/call", some "t", none, none, none⟩).status ≠ 200 := by
  constructor
  · rfl
  · show (McpPostResponse.callFailure 500 "boom").status ≠ 200
    decide

/-- C4 amended: execution failures are handled differently by the two
dispatchers in the source.  In the MCP SDK dispatcher
(`callToolRequestHandler`), invoking a registered tool whose execute
function throws produces a *returned* (not thrown) result — a
successful envelope — whose content carries the failure text
`Error: <message>` and flags it with `isError: true`.  On the legacy
`/mcp` endpoint, the same failure instead produces the HTTP 500
envelope `{success: false, error: <message>}`. -/
theorem execution_failure_embedded_error :
    (∀ (tools : List Tool) (nm : String) (pargs : Option JValue) (t : Tool) (m : String),
      tools.find? (fun tl => tl.name = nm) = some t →
      t.execute (jValueOrElse pargs (.jobj [])) = .error m →
      callToolRequestHandler tools nm pargs =
        .ok { content := [{ type := "text", text := "Error: " ++ m }], isError := some true }) ∧
    (∀ (tools : List Tool) (body : McpBody) (nm : String) (t : Tool) (m : String),
      body.method = some "tools/call" →
      jsOrStr body.paramsName body.paramsToolName = some nm →
      nm ≠ "" →
      tools.find? (fun tl => tl.name = nm) = some t →
      t.execute (jValueOrElse body.paramsArguments
        (jValueOrElse body.paramsArgs (.jobj []))) = .error m →
      mcpPost tools body = .callFailure 500 m) := by
  constructor
  · intro tools nm pargs t m hfind hexec
    unfold callToolRequestHandler
    simp only []
    rw [hfind]
    show (match t.execute (jValueOrElse pargs (.jobj [])) with
      | .ok result =>
          (Except.ok { content := [{ type := "text", text := jsonStringify result }]
                       isError := none } : Except String CallToolResult)
      | .error emsg =>
          Except.ok { content := [{ type := "text", text := "Error: " ++ emsg }]
                      isError := some true }) =
      Except.ok { content := [{ type := "text", text := "Error: " ++ m }]
                  isError := some true }
    rw [hexec]
  · intro tools body nm t m hm hname hnm hfind hexec
    have h1 : ¬(body.method = some "tools/list" ∨ body.method = some "list_tools") := by
      rw [hm]
      decide
    have h2 : body.method = some "tools/call" ∨ body.method = some "call_tool" := Or.inl hm
    have h3 : strTruthy (jsOrStr body.paramsName body.paramsToolName) = true := by
      rw [hname]
      simpa [strTruthy] using hnm
    have h4 : (jsOrStr body.paramsName body.paramsToolName).getD "" = nm := by
      rw [hname]
      rfl
    unfold mcpPost
    rw [if_neg h1, if_pos h2]
    simp only [h3, not_true, if_neg, if_false]
    rw [h4, hfind]
    show (match t.execute (jValueOrElse body.paramsArguments
        (jValueOrElse body.paramsArgs (.jobj []))) with
      | .ok result => McpPostResponse.callSuccess 200 result
      | .error m => McpPostResponse.callFailure 500 m) = McpPostResponse.callFailure 500 m
    rw [hexec]

theorem execution_failure_embedded_error_witness :
    callToolRequestHandler [⟨"t", "d", .jobj [], fun _ => .error "boom"⟩] "t" none =
      .ok { content := [{ type := "text", text := "Error: boom" }], isError := some true } ∧
    mcpPost [⟨"t", "d", .jobj [], fun _ => .error "boom"⟩]
        ⟨some "tools/call", some "t", none, none, none⟩ =
      .callFailure 500 "boom" := by
  constructor
  · exact execution_failure_embedded_error.1
      [⟨"t", "d", .jobj [], fun _ => .error "boom"⟩] "t" none
      ⟨"t", "d", .jobj [], fun _ => .error "boom"⟩ "boom" rfl rfl
  · exact execution_failure_embedded_error.2
      [⟨"t", "d", .jobj [], fun _ => .error "boom"⟩]
      ⟨some "tools/call", some "t", none, none, none⟩ "t"
      ⟨"t", "d", .jobj [], fun _ => .error "boom"⟩ "boom" rfl rfl (by decide) rfl rfl

/-- C1: for every request admitted by the correlator (valid envelope,
present id `rid`, handler attached, fresh promise token `tok`), and for
every interleaving of `send` resolutions, timer firings and other
registrations that respects token freshness and does not reuse the id
(`eventOK`), in which this request's 30-second timer eventually fires:
exactly one terminal settlement of the request's promise occurs
(`settleCount = 1` — never zero, never more than one), and at every
point of the trace the pending entry keyed by `rid` is present exactly
while the promise is unsettled (`entryAtomic`) — i.e. the entry is
removed in the same atomic event-loop step as the resolution. -/
theorem correlator_exactly_one_resolution (p : PendingMap) (st : SettleMap)
    (msg : RpcMessage) (rid : JsonId) (tok : Nat) (evs : List Event)
    (hv : msg.jsonrpc = some "2.0") (hm : strTruthy msg.method = true)
    (hid : msg.id = some rid)
    (hfresh : ∀ rid', pmLookup p rid' ≠ some tok)
    (hst : settLookup st tok = none)
    (hok : ∀ e ∈ evs, eventOK rid tok e = true)
    (hfire : Event.timerFire rid tok ∈ evs) :
    handleMcpPost true p tok msg =
      { outcome := .awaitReply rid, pending := pmSet p rid tok, handed := true } ∧
    settleCount tok ⟨pmSet p rid tok, st⟩ evs = 1 ∧
    ∀ pre suf, evs = pre ++ suf →
      entryAtomic rid tok (run ⟨pmSet p rid tok, st⟩ pre) := by
  have hsubmit : handleMcpPost true p tok msg =
      { outcome := .awaitReply rid, pending := pmSet p rid tok, handed := true } := by
    simp [handleMcpPost, hv, hm, hid]
  have hInv : Inv rid tok ⟨pmSet p rid tok, st⟩ := by
    rw [inv_def]
    refine ⟨Or.inl ⟨pmLookup_pmSet_self p rid tok, hst⟩, ?_⟩
    intro rid' hne
    rw [pmLookup_pmSet_other p rid rid' tok hne]
    exact hfresh rid'
  refine ⟨hsubmit, ?_, ?_⟩
  · have h0 : isSettled ⟨pmSet p rid tok, st⟩ tok = false := by
      show (settLookup st tok).isSome = false
      rw [hst]
      rfl
    have h1 := isSettled_run_of_fire ⟨pmSet p rid tok, st⟩ evs rid tok hfire
    rw [settleCount_eq]
    simp [h0, h1]
  · intro pre suf heq
    have hokpre : ∀ e ∈ pre, eventOK rid tok e = true := by
      intro e he
      apply hok e
      rw [heq]
      exact List.mem_append_left suf he
    exact (inv_run rid tok ⟨pmSet p rid tok, st⟩ pre hInv hokpre).1

theorem correlator_exactly_one_resolution_witness :
    handleMcpPost true [] 0 ⟨some "2.0", some (.num 1), some "tools/list"⟩ =
      { outcome := .awaitReply (.num 1), pending := pmSet [] (.num 1) 0, handed := true } ∧
    settleCount 0 ⟨pmSet [] (.num 1) 0, []⟩
      [.send ⟨some (.num 1), "result"⟩, .timerFire (.num 1) 0] = 1 ∧
    entryAtomic (.num 1) 0
      (run ⟨pmSet [] (.num 1) 0, []⟩ [.send ⟨some (.num 1), "result"⟩]) := by
  have h := correlator_exactly_one_resolution [] [] ⟨some "2.0", some (.num 1), some "tools/list"⟩
    (.num 1) 0 [.send ⟨some (.num 1), "result"⟩, .timerFire (.num 1) 0]
    rfl (by decide) rfl (fun rid' => by simp [pmLookup]) rfl (by decide) (by decide)
  exact ⟨h.1, h.2.1, h.2.2 [.send ⟨some (.num 1), "result"⟩] [.timerFire (.num 1) 0] rfl⟩

/-- C9: if a second request with the same id is registered while the
first is still pending, `pendingResponses.set` overwrites the entry: the
id now maps to the second request's resolver, the first request's
resolver is no longer reachable from the map, no later trace of sends
(and of timers/registrations of other fresh tokens) can ever settle the
first request's promise, and the first request terminates only when its
own timer fires, rejecting it with the `Request timeout` failure. -/
theorem duplicate_id_overwrites_entry (p : PendingMap) (st : SettleMap) (rid : JsonId)
    (tok1 tok2 : Nat) (hne : tok2 ≠ tok1)
    (hfresh : ∀ rid', pmLookup p rid' ≠ some tok1)
    (hst : settLookup st tok1 = none) :
    pmLookup (run ⟨p, st⟩ [.register rid tok1, .register rid tok2]).pending rid = some tok2 ∧
    (∀ rid', pmLookup (run ⟨p, st⟩ [.register rid tok1, .register rid tok2]).pending rid' ≠
      some tok1) ∧
    ∀ evs, (∀ e ∈ evs, avoidsTok tok1 e = true) →
      settLookup (run (run ⟨p, st⟩ [.register rid tok1, .register rid tok2]) evs).settled
        tok1 = none ∧
      settLookup (step (run (run ⟨p, st⟩ [.register rid tok1, .register rid tok2]) evs)
        (.timerFire rid tok1)).settled tok1 = some (.rejected "Request timeout") := by
  have hs1 : run ⟨p, st⟩ [.register rid tok1, .register rid tok2] =
      ⟨pmSet (pmSet p rid tok1) rid tok2, st⟩ := by
    rw [run_cons, step_register, run_cons, step_register, run_nil]
  have hNo : NoTok tok1 ⟨pmSet (pmSet p rid tok1) rid tok2, st⟩ := by
    rw [noTok_def]
    constructor
    · intro rid'
      by_cases hr : rid' = rid
      · subst hr
        rw [pmLookup_pmSet_self]
        intro hc
        exact hne (Option.some.inj hc)
      · rw [pmLookup_pmSet_other _ _ _ _ hr, pmLookup_pmSet_other _ _ _ _ hr]
        exact hfresh rid'
    · exact hst
  have hNo' : NoTok tok1 (run ⟨p, st⟩ [.register rid tok1, .register rid tok2]) := by
    rw [hs1]
    exact hNo
  refine ⟨?_, ?_, ?_⟩
  · rw [hs1]
    exact pmLookup_pmSet_self _ _ _
  · intro rid'
    exact hNo'.1 rid'
  · intro evs hevs
    obtain ⟨hP2, hS2⟩ := noTok_run tok1 _ evs hNo' hevs
    refine ⟨hS2, ?_⟩
    rcases hrun : run (run ⟨p, st⟩ [.register rid tok1, .register rid tok2]) evs with ⟨p2, st2⟩
    rw [hrun] at hS2
    rw [step_timerFire]
    exact settLookup_settleTok_self_none st2 tok1 _ hS2

theorem duplicate_id_overwrites_entry_witness :
    pmLookup (run ⟨[], []⟩ [.register (.num 7) 0, .register (.num 7) 1]).pending (.num 7) =
      some 1 ∧
    pmLookup (run ⟨[], []⟩ [.register (.num 7) 0, .register (.num 7) 1]).pending (.num 7) ≠
      some 0 ∧
    settLookup (run (run ⟨[], []⟩ [.register (.num 7) 0, .register (.num 7) 1])
      [.send ⟨some (.num 7), "late reply"⟩]).settled 0 = none ∧
    settLookup (step (run (run ⟨[], []⟩ [.register (.num 7) 0, .register (.num 7) 1])
        [.send ⟨some (.num 7), "late reply"⟩]) (.timerFire (.num 7) 0)).settled 0 =
      some (.rejected "Request timeout") := by
  have h := duplicate_id_overwrites_entry [] [] (.num 7) 0 1 (by decide)
    (fun rid' => by simp [pmLookup]) rfl
  have h3 := h.2.2 [.send ⟨some (.num 7), "late reply"⟩] (by decide)
  exact ⟨h.1, h.2.1 (.num 7), h3.1, h3.2⟩
